import Mathlib

/-!
Shallow embedding of `src/main.py` (Telegram company-database bot).

Python strings are modelled as `List Char` (`Str`).  Python dicts whose keys
are fixed in the source are modelled as structures with `Option` fields
(`none` = key absent).  The telebot dispatcher tries the registered message
handlers in registration order and runs the first whose predicate matches;
`routeText` reproduces exactly that chain of predicates, in the order the
handlers appear in the source.
-/

set_option maxRecDepth 10000

abbrev Str := List Char

/-! ## Small Python string primitives -/

/-- Python `s.split(sep)` for a one-character separator. -/
def pySplit (sep : Char) : Str → List Str
  | [] => [[]]
  | x :: xs =>
    if x = sep then [] :: pySplit sep xs
    else
      match pySplit sep xs with
      | [] => [[x]]
      | h :: t => (x :: h) :: t

/-- Python whitespace (the characters `str.strip` removes). -/
def pySpace (c : Char) : Bool :=
  decide (c = ' ') || decide (c = '\t') || decide (c = '\n') || decide (c = '\r')
    || decide (c = '\x0b') || decide (c = '\x0c')

/-- Python `s.strip()`: drop whitespace from both ends. -/
def pyStrip (s : Str) : Str :=
  ((s.dropWhile pySpace).reverse.dropWhile pySpace).reverse

/-- Substring test, Python `pat in s`. -/
def isSubstr (pat : Str) : Str → Bool
  | [] => pat.isEmpty
  | x :: xs => pat.isPrefixOf (x :: xs) || isSubstr pat xs

/-- One step of Python `s.replace(pat, '')` with explicit fuel (the fuel is
always instantiated with `s.length`, which is enough to finish the scan).
Replaces non-overlapping occurrences left to right. -/
def replaceAllF (pat : Str) : Nat → Str → Str
  | _, [] => []
  | 0, l => l
  | fuel + 1, x :: xs =>
    if !pat.isEmpty && pat.isPrefixOf (x :: xs) then
      replaceAllF pat fuel (List.drop (pat.length - 1) xs)
    else
      x :: replaceAllF pat fuel xs

/-- Python `s.replace(pat, '')`. -/
def replaceAll (pat s : Str) : Str := replaceAllF pat s.length s

/-- Python `s.replace(c, '')` for a single character: removes every
occurrence of `c`. -/
def pyReplaceChar (c : Char) (s : Str) : Str :=
  s.filter (fun x => !decide (x = c))

/-- Python `s.isdigit()` restricted to ASCII digits (empty string is false). -/
def pyIsdigit (s : Str) : Bool :=
  !s.isEmpty && s.all Char.isDigit

/-! ## Validators (`validate_inn`, `validate_email`, `validate_phone`) -/

/-- Source `validate_inn`: all digits and length 10 or 12. -/
def validate_inn (inn : Str) : Bool :=
  if !pyIsdigit inn then false
  else if !(decide (inn.length = 10) || decide (inn.length = 12)) then false
  else true

/-- Character class `[a-zA-Z0-9._%+-]` of the local part of the email regex. -/
def emailLocalChar (c : Char) : Bool :=
  c.isAlpha || c.isDigit || decide (c = '.') || decide (c = '_')
    || decide (c = '%') || decide (c = '+') || decide (c = '-')

/-- Character class `[a-zA-Z0-9.-]` of the domain part of the email regex. -/
def emailDomainChar (c : Char) : Bool :=
  c.isAlpha || c.isDigit || decide (c = '.') || decide (c = '-')

/-- Source `validate_email`: `re.match(r'^[a-zA-Z0-9._%+-]+@[a-zA-Z0-9.-]+\.[a-zA-Z]{2,}$', s)`.
Because `@` is in neither character class, a match forces the local part to be
the maximal run of local characters before the first `@`; the domain must then
split at some dot into a non-empty `[a-zA-Z0-9.-]+` part and a final segment of
at least two letters. -/
def validate_email (s : Str) : Bool :=
  let localPart := s.takeWhile emailLocalChar
  match s.drop localPart.length with
  | '@' :: dom =>
    !localPart.isEmpty &&
    (List.range dom.length).any (fun i =>
      let d := dom.take i
      let t := dom.drop (i + 1)
      !d.isEmpty && d.all emailDomainChar && decide (dom.get? i = some '.')
        && decide (2 ≤ t.length) && t.all Char.isAlpha)
  | _ => false

/-- The characters stripped by `validate_phone` before the digit test. -/
def phoneStripChar (c : Char) : Bool :=
  decide (c = '+') || decide (c = ' ') || decide (c = '-')
    || decide (c = '(') || decide (c = ')')

/-- Source `validate_phone`: strip `+ space - ( )`, then require only digits and
length at least 10. -/
def validate_phone (phone : Str) : Bool :=
  let p := pyReplaceChar ')' (pyReplaceChar '(' (pyReplaceChar '-'
             (pyReplaceChar ' ' (pyReplaceChar '+' phone))))
  pyIsdigit p && decide (10 ≤ p.length)

/-! ## Response parser (`parse_api_response`) -/

/-- A possibly-incomplete extracted company record (the `company_data` dict);
also used for the partial data collected by the registration flow
(`user_states[chat]['data']`). -/
structure CompanyData where
  name : Option Str
  inn : Option Str
  phone : Option Str
  contact_person : Option Str
  email : Option Str
deriving DecidableEq

def emptyData : CompanyData := ⟨none, none, none, none, none⟩

def labName : Str := "Название:".toList
def labInn : Str := "ИНН:".toList
def labPhone : Str := "Телефон:".toList
def labContact : Str := "Контактное лицо:".toList
def labEmail : Str := "Email:".toList

/-- The five labels, in the order the `if/elif` chain of
`parse_api_response` tests them. -/
def labels : Fin 5 → Str
  | 0 => labName
  | 1 => labInn
  | 2 => labPhone
  | 3 => labContact
  | 4 => labEmail

def fieldGet : Fin 5 → CompanyData → Option Str
  | 0 => CompanyData.name
  | 1 => CompanyData.inn
  | 2 => CompanyData.phone
  | 3 => CompanyData.contact_person
  | 4 => CompanyData.email

def fieldSet : Fin 5 → CompanyData → Str → CompanyData
  | 0, c, v => { c with name := some v }
  | 1, c, v => { c with inn := some v }
  | 2, c, v => { c with phone := some v }
  | 3, c, v => { c with contact_person := some v }
  | 4, c, v => { c with email := some v }

/-- Which branch of the `if/elif` chain a line takes: the first label (in
source order) occurring anywhere in the line, if any. -/
def matchIdx (line : Str) : Option (Fin 5) :=
  if isSubstr labName line then some 0
  else if isSubstr labInn line then some 1
  else if isSubstr labPhone line then some 2
  else if isSubstr labContact line then some 3
  else if isSubstr labEmail line then some 4
  else none

/-- Body of the per-line loop of `parse_api_response`: on a label match, the
field is set to the line with every occurrence of the label removed, then
stripped. -/
def procLine (acc : CompanyData) (line : Str) : CompanyData :=
  match matchIdx line with
  | some k => fieldSet k acc (pyStrip (replaceAll (labels k) line))
  | none => acc

def extractFields (ls : List Str) : CompanyData :=
  ls.foldl procLine emptyData

/-- The JSON response body, restricted to the three fields
`parse_api_response` reads.  `none` = key absent. -/
structure ApiResp where
  done : Option Str
  message : Option Str
  text : Option Str
deriving DecidableEq

/-- Models `response_data.get('done') or response_data.get('message') or
response_data.get('text', '')`: Python `or` skips operands that are `None`
or the empty string. -/
def textOf (r : ApiResp) : Str :=
  if !(r.done.getD []).isEmpty then r.done.getD []
  else if !(r.message.getD []).isEmpty then r.message.getD []
  else r.text.getD []

/-- Source `parse_api_response`.  A `none` argument models a `None` (or falsy)
`response_data`; an `ApiResp` all of whose used fields are absent or empty
yields `none` through the `if not text_data` check in the source, matching
the `if not response_data` outcome for an empty dict. -/
def parse_api_response (resp : Option ApiResp) : Option CompanyData :=
  match resp with
  | none => none
  | some r =>
    let td := textOf r
    if td.isEmpty then none
    else
      let cd := extractFields (pySplit '\n' td)
      if cd.name.isSome && cd.inn.isSome && cd.email.isSome then some cd
      else none

/-! ## Reply chunking (`for i in range(0, len(response), 4096)`) -/

/-- Chunking loop with explicit fuel (always called with `fuel = s.length`,
which is enough: every step consumes at least one character). -/
def chunkF : Nat → Str → List Str
  | _, [] => []
  | 0, l => [l]
  | fuel + 1, x :: xs => (x :: xs).take 4096 :: chunkF fuel ((x :: xs).drop 4096)

/-- Models `response[i:i+4096]` for `i in range(0, len(response), 4096)`. -/
def chunk4096 (s : Str) : List Str := chunkF s.length s

/-! ## API client retry loop (`APIClient.send_request`) -/

/-- Result of one run of `send_request`: the returned value (`ok (some r)` a
decoded response, `ok none` the fall-through `return None` after an empty
loop), or the re-raised exception; plus how many attempts were made and the
total `time.sleep` amount. -/
structure SendResult where
  result : Except Str (Option ApiResp)
  attempts : Nat
  slept : Nat

/-- The `for attempt in range(MAX_RETRIES)` loop, parameterised by the
outcome of each attempt.  `remaining` counts the iterations still to run, so
the current attempt index is `maxR - remaining`; the check
`attempt == MAX_RETRIES - 1` is `remaining = 1`. -/
def sendLoop (outcome : Nat → Except Str ApiResp) (maxR : Nat) : Nat → SendResult
  | 0 => ⟨.ok none, 0, 0⟩
  | remaining + 1 =>
    let attempt := maxR - (remaining + 1)
    match outcome attempt with
    | .ok r => ⟨.ok (some r), 1, 0⟩
    | .error e =>
      if remaining = 0 then ⟨.error e, 1, 0⟩
      else
        let res := sendLoop outcome maxR remaining
        ⟨res.result, res.attempts + 1, res.slept + 2 ^ attempt⟩

/-- Source `APIClient.send_request`, abstracted over the outcome of each HTTP
attempt. -/
def send_request (outcome : Nat → Except Str ApiResp) (maxR : Nat) : SendResult :=
  sendLoop outcome maxR maxR

/-! ## Conversation engine (per-chat state, handlers, telebot dispatch) -/

/-- The `'state'` string of a `user_states` entry. -/
inductive UState
  | waiting_name
  | waiting_inn
  | waiting_phone
  | waiting_contact
  | waiting_email
  | waiting_api_data
deriving DecidableEq

/-- A `user_states[chat_id]` entry: `{'state': ..., 'data': {...}}` (the API
flow stores no `'data'` key; it is modelled as `emptyData`, which no handler
of that flow reads). -/
structure UserFlow where
  state : UState
  data : CompanyData
deriving DecidableEq

/-- A `search_states[chat_id]` entry.  Both fields are dict keys that may be
present with value `None`: the outer `Option` is key presence, the inner one
the value (`search_type` holds one of the strings `названию`/`инн`/`email`). -/
structure SearchEntry where
  search_type : Option (Option Str)
  search_value : Option (Option Str)
deriving DecidableEq

/-- The two global state dicts, restricted to one chat. -/
structure ChatState where
  user : Option UserFlow
  search : Option SearchEntry
deriving DecidableEq

/-- A stored company row `(id, name, inn, phone, contact_person, email,
created_at)`. -/
structure Company where
  id : Nat
  name : Str
  inn : Str
  phone : Str
  contact_person : Str
  email : Str
  created_at : Str
deriving DecidableEq

/-- Source `format_company_info`. -/
def format_company_info (c : Company) : Str :=
  "Название: ".toList ++ c.name ++ "\nИНН: ".toList ++ c.inn
    ++ "\nТелефон: ".toList ++ c.phone
    ++ "\nКонтактное лицо: ".toList ++ c.contact_person
    ++ "\nEmail: ".toList ++ c.email
    ++ "\nДата создания: ".toList ++ c.created_at

/-- The `field_map` of `DatabaseManager.search_company`; an unrecognized
criterion string yields no field and hence an empty result. -/
def searchField (s : Str) : Option (Company → Str)
  := if s = "названию".toList then some Company.name
     else if s = "инн".toList then some Company.inn
     else if s = "email".toList then some Company.email
     else none

/-- Source `DatabaseManager.search_company`: `LIKE '%value%'` modelled as substring
containment (the Record Store is an external collaborator in the spec). -/
def search_company (dbase : List Company) (stype value : Str) : List Company :=
  match searchField stype with
  | none => []
  | some f => dbase.filter (fun c => isSubstr value (f c))

/-- Outcomes of the external calls a handler invocation may perform; each
field abstracts one fallible collaborator call, `.error` being a raised
exception with its message. -/
structure Env where
  dbase : List Company
  apiResult : Except Str (Option ApiResp)
  saveResult : Except Str Nat
  getFileResult : Except Str Str
  saveFileResult : Except Str Unit
deriving Inhabited

/-- The outbound replies of the handlers (one constructor per distinct
`bot.reply_to` / `bot.send_message` call site). -/
inductive Reply
  | menuPrompt
  | helpText
  | askName
  | askInn
  | askPhone
  | askContact
  | askEmail
  | invalidInn
  | invalidPhone
  | invalidEmail
  | saved
  | saveError (e : Str)
  | askCriterion
  | askValue (t : Str)
  | noneFound
  | noCompanies
  | chunk (s : Str)
  | askApiInput
  | apiSuccess
  | noUsableData
  | errorMsg (e : Str)
deriving DecidableEq

/-- Which registered handler telebot dispatches a text message to. -/
inductive Handler
  | start
  | help
  | addCompany
  | showAll
  | searchStart
  | setSearchType
  | performSearch
  | procName
  | procInn
  | procPhone
  | procContact
  | procEmail
  | sendToApiStart
  | procTextApi
  | noHandler
deriving DecidableEq

def lblStart : Str := "/start".toList
def lblHelp : Str := "Помощь".toList
def lblAdd : Str := "Добавить компанию".toList
def lblShowAll : Str := "Показать все компании".toList
def lblSearch : Str := "Найти компанию".toList
def lblByName : Str := "По названию".toList
def lblByInn : Str := "По ИНН".toList
def lblByEmail : Str := "По email".toList
def lblSendApi : Str := "Отправить данные в API".toList

/-- The labels whose handlers are registered before every flow-state
handler (`/start`, help, add, show-all, search start, the three criterion
buttons). -/
def interceptLabels : List Str :=
  [lblStart, lblHelp, lblAdd, lblShowAll, lblSearch, lblByName, lblByInn, lblByEmail]

/-- Predicate of the `perform_search` handler: a `search_states` entry
exists, its dict has a `search_type` key and no `search_value` key. -/
def performSearchPred (st : ChatState) : Bool :=
  match st.search with
  | some e => e.search_type.isSome && e.search_value.isNone
  | none => false

/-- Predicate of a registration/API state handler: a `user_states` entry
exists and its `'state'` equals the given one. -/
def userStatePred (st : ChatState) (s : UState) : Bool :=
  match st.user with
  | some f => decide (f.state = s)
  | none => false

/-- telebot runs the first registered handler whose predicate matches; this
is the chain of predicates in the registration order of the source
(`start`, `help_message`, `add_company_start`, `show_all_companies`,
`search_company_start`, `set_search_type`, `perform_search`, the five
registration steps, `send_to_api_start`, `process_text_for_api`). -/
def routeText (st : ChatState) (txt : Str) : Handler :=
  if txt = lblStart then .start
  else if txt = lblHelp then .help
  else if txt = lblAdd then .addCompany
  else if txt = lblShowAll then .showAll
  else if txt = lblSearch then .searchStart
  else if txt = lblByName then .setSearchType
  else if txt = lblByInn then .setSearchType
  else if txt = lblByEmail then .setSearchType
  else if performSearchPred st then .performSearch
  else if userStatePred st .waiting_name then .procName
  else if userStatePred st .waiting_inn then .procInn
  else if userStatePred st .waiting_phone then .procPhone
  else if userStatePred st .waiting_contact then .procContact
  else if userStatePred st .waiting_email then .procEmail
  else if txt = lblSendApi then .sendToApiStart
  else if userStatePred st .waiting_api_data then .procTextApi
  else .noHandler

/-! ## Handler bodies -/

/-- Source `process_company_name`: stores the text as the name, no validation. -/
def regNameStep (flow : UserFlow) (txt : Str) : Option UserFlow × List Reply :=
  (some ⟨.waiting_inn, { flow.data with name := some txt }⟩, [.askInn])

/-- Source `process_company_inn`. -/
def regInnStep (flow : UserFlow) (txt : Str) : Option UserFlow × List Reply :=
  if !validate_inn txt then (some flow, [.invalidInn])
  else (some ⟨.waiting_phone, { flow.data with inn := some txt }⟩, [.askPhone])

/-- Source `process_company_phone`. -/
def regPhoneStep (flow : UserFlow) (txt : Str) : Option UserFlow × List Reply :=
  if !validate_phone txt then (some flow, [.invalidPhone])
  else (some ⟨.waiting_contact, { flow.data with phone := some txt }⟩, [.askContact])

/-- Source `process_company_contact`: stores the text, no validation. -/
def regContactStep (flow : UserFlow) (txt : Str) : Option UserFlow × List Reply :=
  (some ⟨.waiting_email, { flow.data with contact_person := some txt }⟩, [.askEmail])

/-- Source `process_company_email`: on a valid email, attempts the save inside
`try`; both on success and on a store exception the entry is deleted.  The
third component lists the records actually inserted. -/
def regEmailStep (env : Env) (flow : UserFlow) (txt : Str) :
    Option UserFlow × List Reply × List CompanyData :=
  if !validate_email txt then (some flow, [.invalidEmail], [])
  else
    let d := { flow.data with email := some txt }
    match env.saveResult with
    | .ok _ => (none, [.saved], [d])
    | .error e => (none, [.saveError e], [])

/-- Source `process_text_for_api`: the whole body is inside `try`; afterwards the
`user_states` entry is deleted unconditionally.  Returns the new chat state,
the replies sent, and the records inserted into the store. -/
def apiTextStep (env : Env) (st : ChatState) :
    ChatState × List Reply × List CompanyData :=
  let out : List Reply × List CompanyData :=
    match env.apiResult with
    | .error e => ([.errorMsg e], [])
    | .ok resp =>
      match parse_api_response resp with
      | none => ([.noUsableData], [])
      | some cd =>
        match env.saveResult with
        | .ok _ => ([.apiSuccess], [cd])
        | .error e => ([.errorMsg e], [])
  ({ st with user := none }, out)

/-- Source `process_files_for_api`: `bot.get_file`, the API call, the company
insert and the file insert may each raise; any exception yields the single
error reply.  A file-insert failure happens after the company insert, so the
company row is still recorded (the orphaned-record case). -/
def apiFileStep (env : Env) (st : ChatState) :
    ChatState × List Reply × List CompanyData :=
  let out : List Reply × List CompanyData :=
    match env.getFileResult with
    | .error e => ([.errorMsg e], [])
    | .ok _ =>
      match env.apiResult with
      | .error e => ([.errorMsg e], [])
      | .ok resp =>
        match parse_api_response resp with
        | none => ([.noUsableData], [])
        | some cd =>
          match env.saveResult with
          | .error e => ([.errorMsg e], [])
          | .ok _ =>
            match env.saveFileResult with
            | .error e => ([.errorMsg e], [cd])
            | .ok _ => ([.apiSuccess], [cd])
  ({ st with user := none }, out)

/-- Reply text of `show_all_companies`. -/
def formatAll (dbase : List Company) : Str :=
  "Список компаний:\n\n".toList
    ++ (dbase.map (fun c => format_company_info c ++ "\n\n".toList)).flatten

/-- Reply text of `perform_search` for a non-empty result list. -/
def formatFound (found : List Company) : Str :=
  ("Найдено компаний: " ++ toString found.length ++ "\n\n").toList
    ++ (found.map (fun c => format_company_info c ++ "\n\n".toList)).flatten

/-- The criterion string `set_search_type` stores for a criterion button. -/
def criterionOf (txt : Str) : Str :=
  if txt = lblByName then "названию".toList
  else if txt = lblByInn then "инн".toList
  else "email".toList

/-- Apply the chosen handler.  Returns the new chat state, the replies and
the inserted records. -/
def applyHandler (env : Env) (st : ChatState) (txt : Str) :
    Handler → ChatState × List Reply × List CompanyData
  | .start => (st, [.menuPrompt], [])
  | .help => (st, [.helpText], [])
  | .addCompany => ({ st with user := some ⟨.waiting_name, emptyData⟩ }, [.askName], [])
  | .showAll =>
    (st,
      if env.dbase.isEmpty then [.noCompanies]
      else (chunk4096 (formatAll env.dbase)).map .chunk, [])
  | .searchStart =>
    ({ st with search := some ⟨some none, some none⟩ }, [.askCriterion], [])
  | .setSearchType =>
    let prev := st.search.getD ⟨none, none⟩
    let t := criterionOf txt
    ({ st with search := some { prev with search_type := some (some t) } },
      [.askValue t], [])
  | .performSearch =>
    let stype := ((st.search.getD ⟨none, none⟩).search_type.getD none).getD []
    let found := search_company env.dbase stype txt
    ({ st with search := none },
      if found.isEmpty then [.noneFound]
      else (chunk4096 (formatFound found)).map .chunk, [])
  | .procName =>
    match st.user with
    | some flow => let (u, rs) := regNameStep flow txt; ({ st with user := u }, rs, [])
    | none => (st, [], [])
  | .procInn =>
    match st.user with
    | some flow => let (u, rs) := regInnStep flow txt; ({ st with user := u }, rs, [])
    | none => (st, [], [])
  | .procPhone =>
    match st.user with
    | some flow => let (u, rs) := regPhoneStep flow txt; ({ st with user := u }, rs, [])
    | none => (st, [], [])
  | .procContact =>
    match st.user with
    | some flow => let (u, rs) := regContactStep flow txt; ({ st with user := u }, rs, [])
    | none => (st, [], [])
  | .procEmail =>
    match st.user with
    | some flow =>
      let (u, rs, ps) := regEmailStep env flow txt
      ({ st with user := u }, rs, ps)
    | none => (st, [], [])
  | .sendToApiStart =>
    ({ st with user := some ⟨.waiting_api_data, emptyData⟩ }, [.askApiInput], [])
  | .procTextApi => apiTextStep env st
  | .noHandler => (st, [], [])

/-- One inbound text message: route in registration order, run the chosen
handler. -/
def handleText (env : Env) (st : ChatState) (txt : Str) :
    ChatState × List Reply × List CompanyData :=
  applyHandler env st txt (routeText st txt)

/-- One inbound file message: only `process_files_for_api` accepts the file
content types, so any other state ignores the event. -/
def handleFile (env : Env) (st : ChatState) :
    ChatState × List Reply × List CompanyData :=
  if userStatePred st .waiting_api_data then apiFileStep env st
  else (st, [], [])

/-- A concrete environment for closed evaluations. -/
def env0 : Env := ⟨[], .ok none, .ok 1, .ok [], .ok ()⟩

/-! ## Theorems -/

lemma chunkF_spec (fuel : Nat) :
    ∀ s : Str, s.length ≤ fuel →
      (∀ c ∈ chunkF fuel s, c.length ≤ 4096) ∧ (chunkF fuel s).flatten = s := by
  induction fuel with
  | zero =>
    intro s hs
    have : s = [] := List.eq_nil_of_length_eq_zero (Nat.le_zero.mp hs)
    subst this
    simp [chunkF]
  | succ fuel ih =>
    intro s hs
    match s with
    | [] => simp [chunkF]
    | x :: xs =>
      have hdrop : ((x :: xs).drop 4096).length ≤ fuel := by
        simp only [List.length_drop, List.length_cons]
        simp only [List.length_cons] at hs
        omega
      obtain ⟨ihb, ihj⟩ := ih ((x :: xs).drop 4096) hdrop
      constructor
      · intro c hc
        simp only [chunkF, List.mem_cons] at hc
        rcases hc with rfl | hc
        · exact List.length_take_le _ _
        · exact ihb c hc
      · simp only [chunkF, List.flatten_cons, ihj]
        exact List.take_append_drop _ _

/-- C9: every chunk `show_all_companies` / `perform_search` sends has length
at most 4096, and concatenating the chunks in order reproduces the formatted
listing exactly. -/
theorem reply_chunking (s : Str) :
    (∀ c ∈ chunk4096 s, c.length ≤ 4096) ∧ (chunk4096 s).flatten = s :=
  chunkF_spec s.length s le_rfl

lemma phone_strip_eq_filter (s : Str) :
    pyReplaceChar ')' (pyReplaceChar '(' (pyReplaceChar '-'
        (pyReplaceChar ' ' (pyReplaceChar '+' s))))
      = s.filter (fun c => !phoneStripChar c) := by
  unfold pyReplaceChar
  rw [List.filter_filter, List.filter_filter, List.filter_filter, List.filter_filter]
  apply List.filter_congr
  intro a _
  simp only [phoneStripChar, Bool.not_or]
  generalize decide (a = '+') = b1
  generalize decide (a = ' ') = b2
  generalize decide (a = '-') = b3
  generalize decide (a = '(') = b4
  generalize decide (a = ')') = b5
  cases b1 <;> cases b2 <;> cases b3 <;> cases b4 <;> cases b5 <;> rfl

/-- C8: the phone validator accepts exactly when, after removing every
occurrence of `+ - ( )` and space, at least 10 characters remain and all of
them are digits. -/
theorem validate_phone_spec (s : Str) :
    validate_phone s = true ↔
      10 ≤ (s.filter (fun c => !phoneStripChar c)).length ∧
        ∀ c ∈ s.filter (fun c => !phoneStripChar c), c.isDigit = true := by
  have h := phone_strip_eq_filter s
  simp only [validate_phone, h, pyIsdigit, Bool.and_eq_true, decide_eq_true_eq,
    Bool.not_eq_true', List.isEmpty_eq_false, List.all_eq_true]
  constructor
  · rintro ⟨⟨_, hall⟩, hlen⟩
    exact ⟨hlen, hall⟩
  · rintro ⟨hlen, hall⟩
    refine ⟨⟨?_, hall⟩, hlen⟩
    intro hnil
    rw [hnil] at hlen
    simp at hlen

lemma sendLoop_first_success (k : Nat) :
    ∀ (rem maxR : Nat) (outcome : Nat → Except Str ApiResp) (r : ApiResp),
      rem ≤ maxR → k < rem →
      (∀ i, i < k → ∃ e, outcome (maxR - rem + i) = .error e) →
      outcome (maxR - rem + k) = .ok r →
      sendLoop outcome maxR rem =
        ⟨.ok (some r), k + 1, 2 ^ (maxR - rem + k) - 2 ^ (maxR - rem)⟩ := by
  induction k with
  | zero =>
    intro rem maxR outcome r hle hk hfail hsucc
    match rem, hk with
    | rem' + 1, _ =>
      have hidx : maxR - (rem' + 1) + 0 = maxR - (rem' + 1) := by omega
      rw [hidx] at hsucc
      simp only [sendLoop, hsucc, Nat.add_zero, Nat.sub_self]
  | succ k ih =>
    intro rem maxR outcome r hle hk hfail hsucc
    match rem, hk with
    | rem' + 1, _ =>
      obtain ⟨e, he⟩ := hfail 0 (Nat.succ_pos k)
      rw [Nat.add_zero] at he
      have hrem' : rem' ≠ 0 := by omega
      have ha : maxR - rem' = maxR - (rem' + 1) + 1 := by omega
      have hrec := ih rem' maxR outcome r (by omega) (by omega)
        (fun i hi => by
          have := hfail (i + 1) (by omega)
          rwa [show maxR - (rem' + 1) + (i + 1) = maxR - rem' + i by omega] at this)
        (by rwa [show maxR - (rem' + 1) + (k + 1) = maxR - rem' + k by omega] at hsucc)
      simp only [sendLoop, he, if_neg hrem', hrec]
      have h2 : maxR - rem' + k = maxR - (rem' + 1) + (k + 1) := by omega
      have h3 : (2 : Nat) ^ (maxR - rem') = 2 ^ (maxR - (rem' + 1)) * 2 := by
        rw [ha, pow_succ]
      have h4 : (2 : Nat) ^ (maxR - (rem' + 1)) ≤ 2 ^ (maxR - (rem' + 1) + k) :=
        Nat.pow_le_pow_right (by omega) (by omega)
      have h5 : (2 : Nat) ^ (maxR - (rem' + 1) + (k + 1)) =
          2 ^ (maxR - (rem' + 1) + k) * 2 := by
        rw [show maxR - (rem' + 1) + (k + 1) = (maxR - (rem' + 1) + k) + 1 by omega, pow_succ]
      congr 1
      rw [h2, h3]
      omega

lemma sendLoop_all_fail (rem : Nat) :
    ∀ (maxR : Nat) (outcome : Nat → Except Str ApiResp) (f : Nat → Str),
      0 < rem → rem ≤ maxR →
      (∀ i, maxR - rem ≤ i → i < maxR → outcome i = .error (f i)) →
      sendLoop outcome maxR rem =
        ⟨.error (f (maxR - 1)), rem, 2 ^ (maxR - 1) - 2 ^ (maxR - rem)⟩ := by
  induction rem with
  | zero => intro maxR outcome f h0; omega
  | succ rem' ih =>
    intro maxR outcome f h0 hle hf
    by_cases hz : rem' = 0
    · subst hz
      have he : outcome (maxR - 1) = .error (f (maxR - 1)) := hf (maxR - 1) (by omega) (by omega)
      simp only [sendLoop]
      rw [show maxR - (0 + 1) = maxR - 1 by omega, he]
      simp [Nat.sub_self]
    · have he : outcome (maxR - (rem' + 1)) = .error (f (maxR - (rem' + 1))) :=
        hf (maxR - (rem' + 1)) (by omega) (by omega)
      have hrec := ih maxR outcome f (by omega) (by omega)
        (fun i hi1 hi2 => hf i (by omega) hi2)
      simp only [sendLoop, he, if_neg hz, hrec]
      have ha : maxR - rem' = maxR - (rem' + 1) + 1 := by omega
      have h3 : (2 : Nat) ^ (maxR - rem') = 2 ^ (maxR - (rem' + 1)) * 2 := by
        rw [ha, pow_succ]
      have h4 : (2 : Nat) ^ (maxR - rem') ≤ 2 ^ (maxR - 1) :=
        Nat.pow_le_pow_right (by omega) (by omega)
      congr 1
      rw [h3] at h4 ⊢
      omega

/-- C5: `send_request` returns the decoded response of the first successful
attempt, with `k + 1` attempts made and `2^0 + ... + 2^(k-1) = 2^k - 1`
time units of backoff when the first `k` attempts fail; and when every
attempt fails it re-raises the final failure after exactly `maxR` attempts. -/
theorem apiclient_retry_contract (outcome : Nat → Except Str ApiResp)
    (maxR k : Nat) (r : ApiResp) (f : Nat → Str) :
    (k < maxR → (∀ i, i < k → ∃ e, outcome i = .error e) → outcome k = .ok r →
      send_request outcome maxR = ⟨.ok (some r), k + 1, 2 ^ k - 1⟩) ∧
    ((∀ i, i < maxR → outcome i = .error (f i)) → 0 < maxR →
      send_request outcome maxR = ⟨.error (f (maxR - 1)), maxR, 2 ^ (maxR - 1) - 1⟩) := by
  constructor
  · intro hk hfail hsucc
    have h := sendLoop_first_success k maxR maxR outcome r le_rfl hk
      (fun i hi => by simpa [Nat.sub_self] using hfail i hi)
      (by simpa [Nat.sub_self] using hsucc)
    simpa [send_request, Nat.sub_self] using h
  · intro hfail h0
    have h := sendLoop_all_fail maxR maxR outcome f h0 le_rfl
      (fun i _ hi2 => hfail i hi2)
    simpa [send_request, Nat.sub_self] using h

def outcomeW1 : Nat → Except Str ApiResp :=
  fun i => if i < 2 then .error "fail".toList else .ok ⟨some "ok".toList, none, none⟩

def outcomeW2 : Nat → Except Str ApiResp := fun _ => .error "down".toList

/-- Witness for C5: failing twice then succeeding within `max_retries = 3`
returns the response after 3 attempts and `2^0 + 2^1 = 3` units of sleep;
always failing re-raises after exactly 3 attempts. -/
theorem apiclient_retry_contract_witness :
    send_request outcomeW1 3 = ⟨.ok (some ⟨some "ok".toList, none, none⟩), 3, 3⟩ ∧
    send_request outcomeW2 3 = ⟨.error "down".toList, 3, 3⟩ := by
  constructor
  · have h := (apiclient_retry_contract outcomeW1 3 2 ⟨some "ok".toList, none, none⟩
      (fun _ => [])).1 (by omega)
      (fun i hi => by
        interval_cases i
        · exact ⟨"fail".toList, rfl⟩
        · exact ⟨"fail".toList, rfl⟩)
      rfl
    have h3 : (2 : Nat) ^ 2 - 1 = 3 := by norm_num
    rwa [h3] at h
  · have h := (apiclient_retry_contract outcomeW2 3 0 ⟨none, none, none⟩
      (fun _ => "down".toList)).2 (fun i _ => rfl) (by omega)
    have h3 : (2 : Nat) ^ (3 - 1) - 1 = 3 := by norm_num
    rwa [h3] at h

/-- C10: with a configured maximum of 0 attempts the retry loop never runs:
no attempt is made, nothing is raised, and `None` is returned; the API flow
then replies with the "no usable data" message and clears the state. -/
theorem zero_retries_no_call (outcome : Nat → Except Str ApiResp)
    (env : Env) (st : ChatState) :
    send_request outcome 0 = ⟨.ok none, 0, 0⟩ ∧
    parse_api_response none = none ∧
    (env.apiResult = .ok none →
      apiTextStep env st = ({ st with user := none }, [Reply.noUsableData], [])) := by
  refine ⟨rfl, rfl, fun h => ?_⟩
  simp [apiTextStep, h, parse_api_response]

/-- Witness for C10 at a concrete all-failing outcome and the concrete
environment whose API call returned `None`. -/
theorem zero_retries_no_call_witness :
    send_request (fun _ => Except.error "x".toList) 0 = ⟨.ok none, 0, 0⟩ ∧
    apiTextStep env0 ⟨none, none⟩ = (⟨none, none⟩, [Reply.noUsableData], []) := by
  have h := zero_retries_no_call (fun _ => Except.error "x".toList) env0 ⟨none, none⟩
  exact ⟨h.1, h.2.2 rfl⟩

/-- The `search_states` entry written by `search_company_start`: both dict
keys present, both values `None`. -/
def stSearchMenu : ChatState := ⟨none, some ⟨some none, some none⟩⟩

/-- The entry after `set_search_type` ran on that state. -/
def stSearchCrit : ChatState := ⟨none, some ⟨some (some "инн".toList), some none⟩⟩

/-- C1: entering the search flow through the "Найти компанию" button and a
criterion button leaves a `search_states` entry whose `search_value` key is
present, so the `perform_search` predicate never fires: the next text
message matches no handler, gets no reply, runs no search, and leaves the
stale entry in place.  Only an entry without the `search_value` key (never
produced by the button flow) routes to `perform_search`. -/
theorem searchflow_menu_entry_blocked :
    handleText env0 ⟨none, none⟩ lblSearch = (stSearchMenu, [Reply.askCriterion], []) ∧
    handleText env0 stSearchMenu lblByInn =
      (stSearchCrit, [Reply.askValue "инн".toList], []) ∧
    routeText stSearchCrit "1234567890".toList = Handler.noHandler ∧
    handleText env0 stSearchCrit "1234567890".toList = (stSearchCrit, [], []) ∧
    routeText ⟨none, some ⟨some (some "инн".toList), none⟩⟩ "1234567890".toList =
      Handler.performSearch := by
  exact ⟨rfl, rfl, rfl, rfl, rfl⟩

def stRegName : ChatState := ⟨some ⟨.waiting_name, emptyData⟩, none⟩

/-- Counterexample to C2 as stated: a chat whose registration flow is at
`waiting_name` sends the help label; the help handler (registered before the
flow handlers) consumes it, the `waiting_name` step does not run, and the
flow state and partial data are untouched. -/
theorem dispatch_statefirst_counterexample :
    routeText stRegName lblHelp = Handler.help ∧
    Handler.help ≠ Handler.procName ∧
    handleText env0 stRegName lblHelp = (stRegName, [Reply.helpText], []) := by
  exact ⟨rfl, by decide, rfl⟩

/-- The handler that consumes a text while the given flow state is active
and no earlier predicate intercepts it. -/
def flowHandler : UState → Handler
  | .waiting_name => .procName
  | .waiting_inn => .procInn
  | .waiting_phone => .procPhone
  | .waiting_contact => .procContact
  | .waiting_email => .procEmail
  | .waiting_api_data => .procTextApi

/-- The handler owning each of the labels registered before the flow
handlers. -/
def labelHandler (txt : Str) : Handler :=
  if txt = lblStart then .start
  else if txt = lblHelp then .help
  else if txt = lblAdd then .addCompany
  else if txt = lblShowAll then .showAll
  else if txt = lblSearch then .searchStart
  else if txt = lblByName then .setSearchType
  else if txt = lblByInn then .setSearchType
  else if txt = lblByEmail then .setSearchType
  else .noHandler

/-- C2 amended: dispatch follows handler registration order, not state
first.  A text equal to `/start`, a top-level menu label other than the
send-to-API one, or a criterion label is consumed by that label's handler
even when a flow is active; a text matching none of those labels (and not
firing the pending-search predicate) is consumed by the active flow's step
handler — during a registration step this includes the send-to-API label,
whose handler is registered after the registration steps, while in the
`waiting_api_data` state the send-to-API label is intercepted. -/
theorem dispatch_registration_order (st : ChatState) (txt : Str) :
    (∀ flow, st.user = some flow → txt ∉ interceptLabels →
      performSearchPred st = false →
      (flow.state = UState.waiting_api_data → txt ≠ lblSendApi) →
      routeText st txt = flowHandler flow.state) ∧
    (txt ∈ interceptLabels → routeText st txt = labelHandler txt) := by
  constructor
  · intro flow hu hnot hps hapi
    simp only [interceptLabels, List.mem_cons, List.not_mem_nil, or_false, not_or] at hnot
    obtain ⟨h1, h2, h3, h4, h5, h6, h7, h8⟩ := hnot
    obtain ⟨s, d⟩ := flow
    cases s <;>
      simp_all [routeText, userStatePred, flowHandler]
  · intro hm
    simp only [interceptLabels, List.mem_cons, List.not_mem_nil, or_false] at hm
    rcases hm with rfl | rfl | rfl | rfl | rfl | rfl | rfl | rfl <;> rfl

def stRegInnW : ChatState :=
  ⟨some ⟨.waiting_inn, { emptyData with name := some "Ромашка".toList }⟩, none⟩

/-- Witness for the amended C2: with the registration flow at `waiting_inn`,
a non-label text routes to the tax-id step, while the help label routes to
the help handler. -/
theorem dispatch_registration_order_witness :
    routeText stRegInnW "9999".toList = Handler.procInn ∧
    routeText stRegInnW lblHelp = Handler.help := by
  constructor
  · exact (dispatch_registration_order stRegInnW "9999".toList).1
      ⟨.waiting_inn, { emptyData with name := some "Ромашка".toList }⟩ rfl
      (by decide) rfl (fun h => by cases h)
  · exact (dispatch_registration_order stRegInnW lblHelp).2 (by decide)

/-- C6: handling the message a chat in `waiting_api_data` sends produces
exactly one terminal reply — success exactly when the parser yields a
complete record and the store calls succeed (the record is then persisted),
the informational "no usable data" message when the parse result is absent,
and an error reply carrying the exception message on any failure of the
file lookup, the network call or the store — and in every outcome the
`user_states` entry is cleared; the registration email step's save likewise
replies once and clears the entry whether the store succeeds or raises. -/
theorem api_flow_terminal (env : Env) (st : ChatState) :
    ((apiTextStep env st).1 = { st with user := none } ∧
      (apiTextStep env st).2.1.length = 1) ∧
    (∀ e, env.apiResult = .error e →
      (apiTextStep env st).2 = ([.errorMsg e], [])) ∧
    (∀ resp, env.apiResult = .ok resp → parse_api_response resp = none →
      (apiTextStep env st).2 = ([.noUsableData], [])) ∧
    (∀ resp cd n, env.apiResult = .ok resp → parse_api_response resp = some cd →
      env.saveResult = .ok n → (apiTextStep env st).2 = ([.apiSuccess], [cd])) ∧
    (∀ resp cd e, env.apiResult = .ok resp → parse_api_response resp = some cd →
      env.saveResult = .error e → (apiTextStep env st).2 = ([.errorMsg e], [])) ∧
    ((apiFileStep env st).1 = { st with user := none } ∧
      (apiFileStep env st).2.1.length = 1) ∧
    (∀ e, env.getFileResult = .error e →
      (apiFileStep env st).2 = ([.errorMsg e], [])) ∧
    (∀ u resp, env.getFileResult = .ok u → env.apiResult = .ok resp →
      parse_api_response resp = none → (apiFileStep env st).2 = ([.noUsableData], [])) ∧
    (∀ u resp cd n, env.getFileResult = .ok u → env.apiResult = .ok resp →
      parse_api_response resp = some cd → env.saveResult = .ok n →
      env.saveFileResult = .ok () → (apiFileStep env st).2 = ([.apiSuccess], [cd])) ∧
    (∀ u resp cd n e, env.getFileResult = .ok u → env.apiResult = .ok resp →
      parse_api_response resp = some cd → env.saveResult = .ok n →
      env.saveFileResult = .error e → (apiFileStep env st).2 = ([.errorMsg e], [cd])) ∧
    (∀ flow txt n, validate_email txt = true → env.saveResult = .ok n →
      regEmailStep env flow txt =
        (none, [.saved], [{ flow.data with email := some txt }])) ∧
    (∀ flow txt e, validate_email txt = true → env.saveResult = .error e →
      regEmailStep env flow txt = (none, [.saveError e], [])) := by
  refine ⟨⟨rfl, ?_⟩, ?_, ?_, ?_, ?_, ⟨rfl, ?_⟩, ?_, ?_, ?_, ?_, ?_, ?_⟩
  · rcases ha : env.apiResult with e | resp
    · simp [apiTextStep, ha]
    · rcases hp : parse_api_response resp with _ | cd
      · simp [apiTextStep, ha, hp]
      · rcases hs : env.saveResult with e | n <;> simp [apiTextStep, ha, hp, hs]
  · intro e ha; simp [apiTextStep, ha]
  · intro resp ha hp; simp [apiTextStep, ha, hp]
  · intro resp cd n ha hp hs; simp [apiTextStep, ha, hp, hs]
  · intro resp cd e ha hp hs; simp [apiTextStep, ha, hp, hs]
  · rcases hg : env.getFileResult with e | u
    · simp [apiFileStep, hg]
    · rcases ha : env.apiResult with e | resp
      · simp [apiFileStep, hg, ha]
      · rcases hp : parse_api_response resp with _ | cd
        · simp [apiFileStep, hg, ha, hp]
        · rcases hs : env.saveResult with e | n
          · simp [apiFileStep, hg, ha, hp, hs]
          · rcases hf : env.saveFileResult with e | u' <;>
              simp [apiFileStep, hg, ha, hp, hs, hf]
  · intro e hg; simp [apiFileStep, hg]
  · intro u resp hg ha hp; simp [apiFileStep, hg, ha, hp]
  · intro u resp cd n hg ha hp hs hf; simp [apiFileStep, hg, ha, hp, hs, hf]
  · intro u resp cd n e hg ha hp hs hf; simp [apiFileStep, hg, ha, hp, hs, hf]
  · intro flow txt n hv hs; simp [regEmailStep, hv, hs]
  · intro flow txt e hv hs; simp [regEmailStep, hv, hs]

def envE : Env := ⟨[], .error "boom".toList, .ok 1, .ok [], .ok ()⟩

def stApiW : ChatState := ⟨some ⟨.waiting_api_data, emptyData⟩, none⟩

/-- Witness for C6 at concrete environments: a failing API call yields the
single error reply, a `None` response yields the single informational
reply, and both clear the state entry. -/
theorem api_flow_terminal_witness :
    (apiTextStep envE stApiW).2 = ([Reply.errorMsg "boom".toList], []) ∧
    (apiTextStep env0 stApiW).2 = ([Reply.noUsableData], []) ∧
    (apiTextStep envE stApiW).1 = (⟨none, none⟩ : ChatState) := by
  refine ⟨(api_flow_terminal envE stApiW).2.1 "boom".toList rfl,
          (api_flow_terminal env0 stApiW).2.2.1 none rfl rfl,
          (api_flow_terminal envE stApiW).1.1⟩

/-- C7: at the tax-id, phone and email steps, an invalid input leaves the
`user_states` entry — step and partial data, in particular the collected
name — exactly as it was and sends only the corrective re-prompt; a second
invalid submission behaves identically. -/
theorem registration_invalid_keeps_state (flow : UserFlow) (t t2 : Str) (env : Env) :
    (validate_inn t = false → regInnStep flow t = (some flow, [Reply.invalidInn])) ∧
    (validate_inn t = false → validate_inn t2 = false →
      (regInnStep flow t).1 = some flow ∧
      regInnStep flow t2 = (some flow, [Reply.invalidInn])) ∧
    (validate_phone t = false → regPhoneStep flow t = (some flow, [Reply.invalidPhone])) ∧
    (validate_email t = false →
      regEmailStep env flow t = (some flow, [Reply.invalidEmail], [])) := by
  refine ⟨fun h => ?_, fun h h2 => ⟨?_, ?_⟩, fun h => ?_, fun h => ?_⟩ <;>
    simp [regInnStep, regPhoneStep, regEmailStep, *]

def flowW : UserFlow := ⟨.waiting_inn, { emptyData with name := some "Ромашка".toList }⟩

/-- Witness for C7: a concrete invalid input at each step, with a collected
name in the partial data. -/
theorem registration_invalid_keeps_state_witness :
    regInnStep flowW "12x".toList = (some flowW, [Reply.invalidInn]) ∧
    (regInnStep flowW "12x".toList).1 = some flowW ∧
    regInnStep flowW "13y".toList = (some flowW, [Reply.invalidInn]) ∧
    regPhoneStep flowW "12x".toList = (some flowW, [Reply.invalidPhone]) ∧
    regEmailStep env0 flowW "12x".toList = (some flowW, [Reply.invalidEmail], []) := by
  have h := registration_invalid_keeps_state flowW "12x".toList "13y".toList env0
  exact ⟨h.1 (by decide), (h.2.1 (by decide) (by decide)).1,
         (h.2.1 (by decide) (by decide)).2, h.2.2.1 (by decide), h.2.2.2 (by decide)⟩

lemma fieldGet_set_same (k : Fin 5) (c : CompanyData) (v : Str) :
    fieldGet k (fieldSet k c v) = some v := by
  fin_cases k <;> rfl

lemma fieldGet_set_other (k j : Fin 5) (c : CompanyData) (v : Str) (h : j ≠ k) :
    fieldGet k (fieldSet j c v) = fieldGet k c := by
  fin_cases k <;> fin_cases j <;> simp_all [fieldGet, fieldSet]

lemma extract_frame (k : Fin 5) :
    ∀ (ls : List Str) (acc : CompanyData),
      (∀ l ∈ ls, matchIdx l ≠ some k) →
      fieldGet k (ls.foldl procLine acc) = fieldGet k acc := by
  intro ls
  induction ls with
  | nil => intro acc _; rfl
  | cons l ls ih =>
    intro acc h
    rw [List.foldl_cons, ih _ (fun x hx => h x (List.mem_cons_of_mem _ hx))]
    unfold procLine
    cases hm : matchIdx l with
    | none => rfl
    | some j =>
      exact fieldGet_set_other k j acc _
        (fun he => (h l (List.mem_cons_self _ _)) (he ▸ hm))

lemma extract_found (k : Fin 5) :
    ∀ (ls : List Str) (acc : CompanyData) (lk : Str),
      ls.filter (fun l => decide (matchIdx l = some k)) = [lk] →
      fieldGet k (ls.foldl procLine acc) =
        some (pyStrip (replaceAll (labels k) lk)) := by
  intro ls
  induction ls with
  | nil => intro acc lk h; simp at h
  | cons l ls ih =>
    intro acc lk h
    rw [List.foldl_cons]
    by_cases hm : matchIdx l = some k
    · rw [List.filter_cons_of_pos (by simpa using hm)] at h
      obtain ⟨rfl, hnil⟩ : l = lk ∧ ls.filter (fun l => decide (matchIdx l = some k)) = [] := by
        simpa using h
      rw [extract_frame k ls _ (fun x hx hmx => by
        have := List.filter_eq_nil_iff.mp hnil x hx
        simp [hmx] at this)]
      unfold procLine
      rw [hm]
      exact fieldGet_set_same k acc _
    · rw [List.filter_cons_of_neg (by simpa using hm)] at h
      exact ih (procLine acc l) lk h

lemma textOf_done (t : Str) : textOf ⟨some t, none, none⟩ = t := by
  cases t <;> rfl

lemma matchIdx_email_substr (l : Str) :
    matchIdx l = some 4 → isSubstr labEmail l = true := by
  unfold matchIdx
  split_ifs <;> simp_all

/-- The lines of the response text the `if/elif` chain attributes to label
`k` (first-match-in-listed-order, substring-based). -/
def lineFilter (t : Str) (k : Fin 5) : List Str :=
  (pySplit '\n' t).filter (fun l => decide (matchIdx l = some k))

/-- C3 amended: when each of the five labels is attributed exactly one line
(in any order), the parse yields a candidate whose fields are those lines
with every occurrence of their label removed and the result trimmed of
surrounding whitespace — the post-label text exactly when the label heads
the line and occurs once; and a text none of whose lines contains the Email
label parses to absent even when the name and tax-id labels are present. -/
theorem parser_roundtrip_amended (t l0 l1 l2 l3 l4 : Str) :
    (lineFilter t 0 = [l0] → lineFilter t 1 = [l1] → lineFilter t 2 = [l2] →
      lineFilter t 3 = [l3] → lineFilter t 4 = [l4] →
      parse_api_response (some ⟨some t, none, none⟩) =
        some ⟨some (pyStrip (replaceAll labName l0)),
              some (pyStrip (replaceAll labInn l1)),
              some (pyStrip (replaceAll labPhone l2)),
              some (pyStrip (replaceAll labContact l3)),
              some (pyStrip (replaceAll labEmail l4))⟩) ∧
    ((∀ l ∈ pySplit '\n' t, isSubstr labEmail l = false) →
      parse_api_response (some ⟨some t, none, none⟩) = none) := by
  constructor
  · intro h0 h1 h2 h3 h4
    have e0 := extract_found 0 (pySplit '\n' t) emptyData l0 h0
    have e1 := extract_found 1 (pySplit '\n' t) emptyData l1 h1
    have e2 := extract_found 2 (pySplit '\n' t) emptyData l2 h2
    have e3 := extract_found 3 (pySplit '\n' t) emptyData l3 h3
    have e4 := extract_found 4 (pySplit '\n' t) emptyData l4 h4
    have hne : t ≠ [] := by
      intro he
      subst he
      have hz : lineFilter ([] : Str) 0 = [] := by decide
      rw [hz] at h0
      simp at h0
    have hext : extractFields (pySplit '\n' t) =
        ⟨some (pyStrip (replaceAll labName l0)),
         some (pyStrip (replaceAll labInn l1)),
         some (pyStrip (replaceAll labPhone l2)),
         some (pyStrip (replaceAll labContact l3)),
         some (pyStrip (replaceAll labEmail l4))⟩ := by
      unfold extractFields
      cases hE : (pySplit '\n' t).foldl procLine emptyData with
      | mk n i p c e =>
        unfold extractFields at e0 e1 e2 e3 e4
        rw [hE] at e0 e1 e2 e3 e4
        simp only [fieldGet, labels] at e0 e1 e2 e3 e4
        rw [e0, e1, e2, e3, e4]
    simp only [parse_api_response, textOf_done]
    rw [if_neg (by simpa using hne)]
    simp [hext]
  · intro hno
    have hemail : (extractFields (pySplit '\n' t)).email = none := by
      have := extract_frame 4 (pySplit '\n' t) emptyData (fun l hl hm => by
        have := matchIdx_email_substr l hm
        rw [hno l hl] at this
        exact Bool.false_ne_true this)
      simpa [fieldGet, emptyData] using this
    simp only [parse_api_response, textOf_done]
    split_ifs <;> simp_all

/-- A response whose five labelled lines are all present but whose name line
carries text before the label. -/
def c3resp : ApiResp :=
  ⟨some "x Название: Acme\nИНН: 1\nТелефон: 2\nКонтактное лицо: И\nEmail: e@e.ru".toList,
   none, none⟩

/-- Counterexample to C3 as stated: all five labelled lines are present, yet
the extracted name is the whole line minus the label (`"x  Acme"`), not the
post-label text trimmed (`"Acme"`), because `line.replace(label, '')` keeps
the text before a mid-line label. -/
theorem parser_claim_counterexample :
    (parse_api_response (some c3resp)).map CompanyData.name =
      some (some "x  Acme".toList) ∧
    some (some "x  Acme".toList) ≠ some (some "Acme".toList) := by
  exact ⟨by decide, by decide⟩

def tW : Str :=
  "Название: Acme\nИНН: 123\nТелефон: 5\nКонтактное лицо: Икс\nEmail: a@b.ru".toList

def tW2 : Str := "Название: A\nИНН: 1\nТелефон: 2".toList

/-- Witness for the amended C3 at a concrete five-line text (and a concrete
text with no Email line). -/
theorem parser_roundtrip_amended_witness :
    parse_api_response (some ⟨some tW, none, none⟩) =
      some ⟨some "Acme".toList, some "123".toList, some "5".toList,
            some "Икс".toList, some "a@b.ru".toList⟩ ∧
    parse_api_response (some ⟨some tW2, none, none⟩) = none := by
  constructor
  · have h := (parser_roundtrip_amended tW
      "Название: Acme".toList "ИНН: 123".toList "Телефон: 5".toList
      "Контактное лицо: Икс".toList "Email: a@b.ru".toList).1
      (by decide) (by decide) (by decide) (by decide) (by decide)
    exact h
  · exact (parser_roundtrip_amended tW2 [] [] [] [] []).2 (by decide)

/-- A response whose `done` field is present but empty, with a complete
record in `message`. -/
def c4resp : ApiResp :=
  ⟨some [], some "Название: A\nИНН: 1\nEmail: e@e.ru".toList, none⟩

/-- Counterexample to C4 as stated: `done` is the first present field and is
empty, yet the parse result is not absent — the `or` chain falls through to
`message`. -/
theorem extraction_claim_counterexample :
    c4resp.done = some [] ∧ parse_api_response (some c4resp) ≠ none := by
  exact ⟨rfl, by decide⟩

/-- C4 amended: the text to parse is the first of `done`, `message`, `text`
(in that fixed order) that is present *and non-empty*; a present-but-empty
field is skipped like an absent one, and when all three are absent or empty
the parse result is absent. -/
theorem extraction_source_amended (r : ApiResp) (d m : Str) :
    (r.done = some d → d ≠ [] → textOf r = d) ∧
    ((r.done = none ∨ r.done = some []) → r.message = some m → m ≠ [] →
      textOf r = m) ∧
    ((r.done = none ∨ r.done = some []) → (r.message = none ∨ r.message = some []) →
      textOf r = r.text.getD []) ∧
    ((r.done = none ∨ r.done = some []) → (r.message = none ∨ r.message = some []) →
      (r.text = none ∨ r.text = some []) → parse_api_response (some r) = none) := by
  refine ⟨fun hd hne => ?_, fun hd hm hne => ?_, fun hd hm => ?_, fun hd hm ht => ?_⟩
  · have hie : d.isEmpty = false := by
      cases d with
      | nil => exact absurd rfl hne
      | cons a l => rfl
    simp [textOf, hd, hie]
  · have hie : m.isEmpty = false := by
      cases m with
      | nil => exact absurd rfl hne
      | cons a l => rfl
    rcases hd with hd | hd <;> simp [textOf, hd, hm, hie]
  · rcases hd with hd | hd <;> rcases hm with hm | hm <;> simp [textOf, hd, hm]
  · rcases hd with hd | hd <;> rcases hm with hm | hm <;> rcases ht with ht | ht <;>
      simp [parse_api_response, textOf, hd, hm, ht]

/-- Witness for the amended C4 at concrete responses exercising each
priority level and the all-empty case. -/
theorem extraction_source_amended_witness :
    textOf ⟨some "d".toList, some "m".toList, none⟩ = "d".toList ∧
    textOf ⟨some [], some "m".toList, none⟩ = "m".toList ∧
    textOf ⟨none, none, some "t".toList⟩ = "t".toList ∧
    parse_api_response (some ⟨some [], none, some []⟩) = none := by
  refine ⟨(extraction_source_amended ⟨some "d".toList, some "m".toList, none⟩
            "d".toList "m".toList).1 rfl (by decide),
          (extraction_source_amended ⟨some [], some "m".toList, none⟩
            [] "m".toList).2.1 (Or.inr rfl) rfl (by decide),
          ?_, ?_⟩
  · exact (extraction_source_amended ⟨none, none, some "t".toList⟩ [] []).2.2.1
      (Or.inl rfl) (Or.inl rfl)
  · exact (extraction_source_amended ⟨some [], none, some []⟩ [] []).2.2.2
      (Or.inr rfl) (Or.inl rfl) (Or.inr rfl)
